import Mathlib

/-!
# Verification of the barcode scanner ledger (`src/app/page.tsx`, `src/unnamed/part_000`)

Shallow embedding of the scan-event aggregation engine of the repository:
the global keydown classifier (`handleGlobalKeyDown`), the save path
(`saveScannedBarcode`), the auto-save quiet timer, the session toggle
(`toggleScanning`), item removal (`removeItem`) and the camera entry path
(`handleScanSuccess` from `src/unnamed/part_000`).

Modelling conventions:
* Times are natural-number milliseconds (`Date.now()`).  JS computes
  `now - lastKeyTime` with signed arithmetic and only ever compares the
  result with `> 500`; Nat truncated subtraction gives `0` exactly when the
  JS value would be negative, and `0 > 500` and `negative > 500` are both
  false, so the branch behaviour coincides.
* A record's `id` is `Date.now().toString()` in the code.  Decimal printing
  of naturals is injective, so equality and ordering of ids are modelled on
  the underlying natural number.
* `String.prototype.trim()` is embedded as `jsTrim`, which strips the
  whitespace characters from both ends of the underlying character list.
* The single `setTimeout` slot held in `autoSaveTimeoutRef` is modelled as
  an optional deadline (`armTime + 200`).  The event loop is single
  threaded: a due timer callback runs before any later event is delivered
  (`advance`), and the `useEffect` cleanup that runs when `isScanning`
  changes clears the pending timer, so `toggleScanning` clears it.
* `setMessage` calls are logged in `msgLog`; the classifier-level flushes
  (the values handed to `saveScannedBarcode` by the Enter handler and the
  timer callback) are logged in `flushLog`, and the ledger outcomes in
  `outcomes`.  These logs are pure observation instrumentation: no branch
  of the model reads them.
-/

/-- Whitespace recognised by JS `String.prototype.trim()` (ASCII part plus
NBSP); the scanner input only ever contains such whitespace. -/
def isJsWs (c : Char) : Bool :=
  c = ' ' || c = '\t' || c = '\n' || c = '\x0d' || c = '\x0b' || c = '\x0c' || c = '\xa0'

/-- Strip leading and trailing JS whitespace from a character list. -/
def trimChars (l : List Char) : List Char :=
  ((l.dropWhile isJsWs).reverse.dropWhile isJsWs).reverse

/-- Embedding of JS `String.prototype.trim()`. -/
def jsTrim (s : String) : String :=
  ⟨trimChars s.data⟩

/-- One row of the scanned list: `interface ScannedItem` of the source.
`id` is the numeric value of the `Date.now().toString()` identifier. -/
structure ScannedItem where
  id : Nat
  serialNumber : String
  timestamp : Nat
  deriving Repr, DecidableEq

/-- A `setMessage` payload: `{ type: 'success' | 'error'; text: string }`. -/
inductive Msg where
  | success (text : String)
  | error (text : String)
  deriving Repr, DecidableEq

/-- Ledger outcome of one `saveScannedBarcode` call that passed the
non-empty check: either a new record or a duplicate rejection. -/
inductive Outcome where
  | recorded (serial : String)
  | duplicate (serial : String)
  deriving Repr, DecidableEq

/-- The component state of the keyboard-scanner page (second variant of
`src/app/page.tsx`): the React state hooks and refs that the claims are
about, plus the observation logs. -/
structure ScanState where
  scannedItems : List ScannedItem
  isScanning : Bool
  scanBuffer : String
  currentScan : String
  lastKeyTime : Nat
  autoSaveDeadline : Option Nat
  msgLog : List Msg
  outcomes : List Outcome
  flushLog : List String
  deriving Repr, DecidableEq

/-- Initial component state: empty ledger, scanning enabled, empty buffer,
`lastKeyTimeRef` initialised to `0`, no pending timer. -/
def initState : ScanState :=
  { scannedItems := []
    isScanning := true
    scanBuffer := ""
    currentScan := ""
    lastKeyTime := 0
    autoSaveDeadline := none
    msgLog := []
    outcomes := []
    flushLog := [] }

/-- `saveScannedBarcode` (src/app/page.tsx lines 246–279).
Early-returns when the value trims to empty; otherwise either reports a
duplicate (ledger untouched) or appends a record whose serial is the
trimmed value and whose id and timestamp are the current time; both
branches then clear the buffer, the mirror input state and the pending
auto-save timer. -/
def saveScannedBarcode (s : ScanState) (scannedValue : String) (now : Nat) : ScanState :=
  if jsTrim scannedValue = "" then s
  else if s.scannedItems.any (fun item => item.serialNumber = jsTrim scannedValue) then
    { s with
      msgLog := s.msgLog ++
        [.error ("Serial number " ++ jsTrim scannedValue ++ " already scanned!")]
      outcomes := s.outcomes ++ [.duplicate (jsTrim scannedValue)]
      scanBuffer := ""
      currentScan := ""
      autoSaveDeadline := none }
  else
    { s with
      scannedItems := s.scannedItems ++ [⟨now, jsTrim scannedValue, now⟩]
      msgLog := s.msgLog ++ [.success ("Scanned: " ++ jsTrim scannedValue)]
      outcomes := s.outcomes ++ [.recorded (jsTrim scannedValue)]
      scanBuffer := ""
      currentScan := ""
      autoSaveDeadline := none }

/-- A keydown as seen by the global handler: Enter, a printable key
(`e.key.length === 1` with no ctrl/meta/alt modifier), or any other key
(which the handler ignores). -/
inductive KeyEvent where
  | enter
  | char (c : Char)
  | other
  deriving Repr, DecidableEq

/-- `handleGlobalKeyDown` (src/app/page.tsx lines 299–352).
Ignores everything while scanning is off.  Enter flushes a non-empty
buffer through `saveScannedBarcode` with no time-based check.  A printable
key first resets buffer and timer when more than 500 ms passed since the
last accepted key, then appends the character, updates `lastKeyTime` and
re-arms the 200 ms auto-save timer (clearing any pending one). -/
def handleGlobalKeyDown (s : ScanState) (e : KeyEvent) (now : Nat) : ScanState :=
  if !s.isScanning then s
  else
    let timeSinceLastKey := now - s.lastKeyTime
    match e with
    | .enter =>
        let scannedValue := s.scanBuffer
        if scannedValue ≠ "" then
          saveScannedBarcode { s with flushLog := s.flushLog ++ [scannedValue] }
            scannedValue now
        else s
    | .char c =>
        let s1 :=
          if timeSinceLastKey > 500 then
            { s with scanBuffer := "", autoSaveDeadline := none }
          else s
        let buf := s1.scanBuffer.push c
        { s1 with
          scanBuffer := buf
          currentScan := buf
          lastKeyTime := now
          autoSaveDeadline := some (now + 200) }
    | .other => s

/-- The auto-save `setTimeout` callback (src/app/page.tsx lines 340–345),
run when the armed timer fires: saves the buffer when it is non-empty.
The handle is spent either way. -/
def fireAutoSave (s : ScanState) (now : Nat) : ScanState :=
  let valueToSave := s.scanBuffer
  if valueToSave ≠ "" then
    saveScannedBarcode
      { s with autoSaveDeadline := none, flushLog := s.flushLog ++ [valueToSave] }
      valueToSave now
  else { s with autoSaveDeadline := none }

/-- Let wall-clock time reach `t`: a pending timer whose deadline is due at
or before `t` fires (at its deadline), since the single-threaded event loop
runs a due timer callback before delivering any later event. -/
def advance (s : ScanState) (t : Nat) : ScanState :=
  match s.autoSaveDeadline with
  | some d => if d ≤ t then fireAutoSave s d else s
  | none => s

/-- `toggleScanning` (src/app/page.tsx lines 373–382) together with the
`useEffect` cleanup on `isScanning` (lines 357–363): flips the enabled
flag, discards the buffer and the input mirror, and clears the pending
auto-save timer.  The ledger and the logs are untouched. -/
def toggleScanning (s : ScanState) : ScanState :=
  { s with
    isScanning := !s.isScanning
    scanBuffer := ""
    currentScan := ""
    autoSaveDeadline := none }

/-- `removeItem` (src/app/page.tsx lines 404–406): keep every item whose id
differs from the given one. -/
def removeItem (s : ScanState) (id : Nat) : ScanState :=
  { s with scannedItems := s.scannedItems.filter (fun item => item.id ≠ id) }

/-- `handleScanSuccess` (src/unnamed/part_000 lines 70–88), the camera
decoder entry path: deduplicates on the raw decoded string (no trim) and
appends the raw decoded string; returns the new list and the message. -/
def handleScanSuccess (items : List ScannedItem) (serialNumber : String) (now : Nat) :
    List ScannedItem × Msg :=
  if items.any (fun item => item.serialNumber = serialNumber) then
    (items, .error ("Serial number " ++ serialNumber ++ " already scanned!"))
  else
    (items ++ [⟨now, serialNumber, now⟩],
     .success ("Scanned: " ++ serialNumber))

/-- An externally observable input to the page: a keydown at time `t`,
mere passage of time up to `t`, a click on the pause/resume button at time
`t`, or a click on an item's remove button at time `t`. -/
inductive Input where
  | key (e : KeyEvent) (t : Nat)
  | elapse (t : Nat)
  | toggle (t : Nat)
  | remove (id : Nat) (t : Nat)
  deriving Repr, DecidableEq

/-- Deliver one input: a due timer fires first, then the handler runs. -/
def step (s : ScanState) (i : Input) : ScanState :=
  match i with
  | .key e t => handleGlobalKeyDown (advance s t) e t
  | .elapse t => advance s t
  | .toggle t => toggleScanning (advance s t)
  | .remove id t => removeItem (advance s t) id

/-- Run a list of inputs from a state. -/
def run (s : ScanState) (is : List Input) : ScanState :=
  is.foldl step s

/-! ## Lemmas about `jsTrim` -/

theorem head?_dropWhile_false (p : α → Bool) (l : List α) :
    ∀ x ∈ (l.dropWhile p).head?, p x = false := by
  intro x hx
  have h := List.head?_dropWhile_not p l
  cases hh : (l.dropWhile p).head? with
  | none => simp [hh] at hx
  | some y =>
      rw [hh] at h hx
      simp only [Option.mem_def, Option.some.injEq] at hx
      subst hx
      exact h

theorem dropWhile_eq_self_of_head (p : α → Bool) (l : List α)
    (h : ∀ x ∈ l.head?, p x = false) : l.dropWhile p = l := by
  cases l with
  | nil => rfl
  | cons a t =>
      refine List.dropWhile_cons_of_neg ?_
      simp [h a (by rfl)]

theorem getLast?_dropWhile (p : α → Bool) (l : List α) (h : l.dropWhile p ≠ []) :
    (l.dropWhile p).getLast? = l.getLast? := by
  induction l with
  | nil => simp at h
  | cons a t ih =>
      by_cases hp : p a = true
      · rw [List.dropWhile_cons_of_pos hp] at h ⊢
        have ht : t ≠ [] := by
          intro he
          subst he
          simp at h
        rw [ih h]
        cases t with
        | nil => exact absurd rfl ht
        | cons b u => simp
      · rw [List.dropWhile_cons_of_neg hp]

theorem trimChars_head? (l : List Char) :
    ∀ x ∈ (trimChars l).head?, isJsWs x = false := by
  intro x hx
  unfold trimChars at hx
  rw [List.head?_reverse] at hx
  by_cases hr : (l.dropWhile isJsWs).reverse.dropWhile isJsWs = []
  · rw [hr] at hx
    simp at hx
  · rw [getLast?_dropWhile isJsWs _ hr, List.getLast?_reverse] at hx
    exact head?_dropWhile_false isJsWs l x hx

theorem trimChars_getLast? (l : List Char) :
    ∀ x ∈ (trimChars l).getLast?, isJsWs x = false := by
  intro x hx
  unfold trimChars at hx
  rw [List.getLast?_reverse] at hx
  exact head?_dropWhile_false isJsWs _ x hx

theorem trimChars_idem (l : List Char) : trimChars (trimChars l) = trimChars l := by
  have h1 : (trimChars l).dropWhile isJsWs = trimChars l :=
    dropWhile_eq_self_of_head isJsWs (trimChars l) (trimChars_head? l)
  have h2 : (trimChars l).reverse.dropWhile isJsWs = (trimChars l).reverse := by
    refine dropWhile_eq_self_of_head isJsWs _ ?_
    intro x hx
    rw [List.head?_reverse] at hx
    exact trimChars_getLast? l x hx
  show (((trimChars l).dropWhile isJsWs).reverse.dropWhile isJsWs).reverse = trimChars l
  rw [h1, h2, List.reverse_reverse]

theorem jsTrim_idem (s : String) : jsTrim (jsTrim s) = jsTrim s := by
  show (⟨trimChars (trimChars s.data)⟩ : String) = ⟨trimChars s.data⟩
  rw [trimChars_idem]

theorem jsTrim_empty : jsTrim "" = "" := rfl

theorem ne_empty_of_jsTrim_ne_empty {s : String} (h : jsTrim s ≠ "") : s ≠ "" := by
  intro he
  subst he
  exact h rfl

/-! ## A scanner burst: consecutive printable keys inside the quiet window -/

/-- The classifier state in the middle of a burst started from `initState`:
ledger and logs still empty, buffer `buf`, last accepted key at `tprev`,
auto-save timer armed for `tprev + 200`. -/
def midState (buf : String) (tprev : Nat) : ScanState :=
  { scannedItems := []
    isScanning := true
    scanBuffer := buf
    currentScan := buf
    lastKeyTime := tprev
    autoSaveDeadline := some (tprev + 200)
    msgLog := []
    outcomes := []
    flushLog := [] }

/-- Timed characters whose arrival times are nondecreasing and whose gaps
stay strictly below the 200 ms quiet timeout, starting from a previous key
at time `prev`. -/
def gapsOk : Nat → List (Char × Nat) → Prop
  | _, [] => True
  | prev, (_, t) :: ps => prev ≤ t ∧ t < prev + 200 ∧ gapsOk t ps

/-- The keydown inputs of a list of timed characters. -/
def charInputs (ps : List (Char × Nat)) : List Input :=
  ps.map (fun p => Input.key (KeyEvent.char p.1) p.2)

/-- Arrival time of the last character, defaulting to `d`. -/
def lastT (d : Nat) : List (Char × Nat) → Nat
  | [] => d
  | (_, t) :: ps => lastT t ps

/-- Append a list of characters to a string one `push` at a time, the way
the buffer accumulates `scanBufferRef.current += e.key`. -/
def pushAll (s : String) : List Char → String
  | [] => s
  | c :: cs => pushAll (s.push c) cs

theorem pushAll_data (cs : List Char) : ∀ s : String, (pushAll s cs).data = s.data ++ cs := by
  induction cs with
  | nil => intro s; simp [pushAll]
  | cons c cs ih =>
      intro s
      rw [pushAll, ih, String.data_push]
      simp

theorem pushAll_ne_empty (s : String) (c : Char) (cs : List Char) :
    pushAll (s.push c) cs ≠ "" := by
  intro h
  have hd := pushAll_data cs (s.push c)
  rw [h] at hd
  simp at hd

/-- The very first printable key from the initial state starts a fresh
one-character buffer and arms the quiet timer, whatever its arrival time:
with an empty buffer and no pending timer the long-gap reset is invisible. -/
theorem step_first_char (c : Char) (t : Nat) :
    step initState (.key (.char c) t) = midState (String.push "" c) t := by
  show handleGlobalKeyDown (advance initState t) (.char c) t = _
  have hadv : advance initState t = initState := rfl
  rw [hadv]
  unfold handleGlobalKeyDown initState midState
  by_cases hgap : t - 0 > 500 <;> simp [hgap]

/-- A printable key arriving inside the quiet window of a burst neither
fires the pending timer nor resets the buffer: it appends and re-arms. -/
theorem step_burst_char (buf : String) (tprev : Nat) (c : Char) (t : Nat)
    (h1 : tprev ≤ t) (h2 : t < tprev + 200) :
    step (midState buf tprev) (.key (.char c) t) = midState (buf.push c) t := by
  show handleGlobalKeyDown (advance (midState buf tprev) t) (.char c) t = _
  have hadv : advance (midState buf tprev) t = midState buf tprev := by
    unfold advance midState
    simp only
    rw [if_neg (by omega)]
  rw [hadv]
  have hgap : ¬ (t - tprev > 500) := by omega
  unfold handleGlobalKeyDown midState
  simp [hgap]

/-- Running a whole burst of quiet-window characters just accumulates them
in the buffer and leaves the timer armed 200 ms after the last one. -/
theorem run_burst (ps : List (Char × Nat)) : ∀ (buf : String) (tprev : Nat),
    gapsOk tprev ps →
    run (midState buf tprev) (charInputs ps)
      = midState (pushAll buf (ps.map Prod.fst)) (lastT tprev ps) := by
  induction ps with
  | nil => intro buf tprev _; rfl
  | cons p ps ih =>
      intro buf tprev h
      obtain ⟨c, t⟩ := p
      obtain ⟨h1, h2, h3⟩ := h
      show run (midState buf tprev) (Input.key (.char c) t :: charInputs ps) = _
      have hstep : run (midState buf tprev) (Input.key (.char c) t :: charInputs ps)
          = run (step (midState buf tprev) (.key (.char c) t)) (charInputs ps) := rfl
      rw [hstep, step_burst_char buf tprev c t h1 h2, ih (buf.push c) t h3]
      rfl

/-- Advancing time before the quiet timeout of a burst changes nothing. -/
theorem advance_before_deadline (buf : String) (tl T : Nat) (hT : T < tl + 200) :
    advance (midState buf tl) T = midState buf tl := by
  unfold advance midState
  simp only
  rw [if_neg (by omega)]

/-- Once the quiet timeout of a burst elapses, the timer fires exactly at
`tl + 200` and flushes the whole buffer; a non-whitespace value becomes the
single ledger record, stamped with the firing time. -/
theorem elapse_after_burst (buf : String) (tl T : Nat) (hbne : buf ≠ "")
    (hT : tl + 200 ≤ T) :
    (advance (midState buf tl) T).flushLog = [buf] ∧
    (advance (midState buf tl) T).autoSaveDeadline = none ∧
    (jsTrim buf ≠ "" →
      (advance (midState buf tl) T).outcomes = [Outcome.recorded (jsTrim buf)] ∧
      (advance (midState buf tl) T).scannedItems.map ScannedItem.serialNumber = [jsTrim buf] ∧
      (advance (midState buf tl) T).scannedItems.map ScannedItem.timestamp = [tl + 200]) := by
  have hadv : advance (midState buf tl) T = fireAutoSave (midState buf tl) (tl + 200) := by
    unfold advance midState
    simp only
    rw [if_pos hT]
  rw [hadv]
  unfold fireAutoSave midState saveScannedBarcode
  by_cases htr : jsTrim buf = "" <;> simp [hbne, htr]

/-- An Enter delivered at any time after a burst yields exactly one flush
of the full buffer: either the quiet timer already fired (and Enter is a
no-op on the emptied buffer) or Enter itself flushes. -/
theorem enter_after_burst (buf : String) (tl tE : Nat) (hbuf : jsTrim buf ≠ "") :
    (step (midState buf tl) (.key .enter tE)).flushLog = [buf] ∧
    (step (midState buf tl) (.key .enter tE)).outcomes = [Outcome.recorded (jsTrim buf)] ∧
    (step (midState buf tl) (.key .enter tE)).scannedItems.map ScannedItem.serialNumber
      = [jsTrim buf] := by
  have hbne : buf ≠ "" := ne_empty_of_jsTrim_ne_empty hbuf
  have hstep : step (midState buf tl) (.key .enter tE)
      = handleGlobalKeyDown (advance (midState buf tl) tE) .enter tE := rfl
  rw [hstep]
  by_cases hd : tl + 200 ≤ tE
  · -- the timer fired first, at tl + 200, and Enter finds an empty buffer
    have hadv : advance (midState buf tl) tE = fireAutoSave (midState buf tl) (tl + 200) := by
      unfold advance midState
      simp only
      rw [if_pos hd]
    rw [hadv]
    unfold fireAutoSave midState saveScannedBarcode handleGlobalKeyDown
    simp [hbne, hbuf]
  · have hadv : advance (midState buf tl) tE = midState buf tl :=
      advance_before_deadline buf tl tE (by omega)
    rw [hadv]
    unfold handleGlobalKeyDown midState saveScannedBarcode
    simp [hbne, hbuf]

/-! ## Claim theorems: C1 and C2 -/

/-- C1 trace with all inter-arrival gaps at or below the 500 ms silence
threshold (a 300 ms gap), followed by Enter. -/
def c1CexTrace : List Input :=
  [.key (.char 'A') 1000, .key (.char 'B') 1300, .key .enter 1350]

/-- C1 counterexample: the characters `A`, `B` arrive 300 ms apart — at or
below the 500 ms silence threshold — and Enter follows, yet the classifier
flushes two completed candidates `"A"` and `"B"` (the 200 ms quiet timer
fires between the characters) and the Ledger gains two records, not the
single record `"AB"` the claim demands. -/
theorem c1_counterexample :
    (run initState c1CexTrace).flushLog = ["A", "B"] ∧
    (run initState c1CexTrace).scannedItems.map ScannedItem.serialNumber = ["A", "B"] ∧
    ¬ ((run initState c1CexTrace).flushLog = ["AB"]) := by
  decide

/-- C1 (amended): for every sequence of printable characters whose
inter-arrival gaps are strictly below the 200 ms quiet timeout, followed by
a terminator at any later time, the classifier produces exactly one
completed candidate — the concatenation of the characters — and, starting
from the empty ledger (so the value is new), the Ledger gains exactly one
record carrying the trimmed value. -/
theorem c1_single_candidate (c0 : Char) (t0 : Nat) (ps : List (Char × Nat)) (tE : Nat)
    (hgaps : gapsOk t0 ps)
    (hne : jsTrim (pushAll (String.push "" c0) (ps.map Prod.fst)) ≠ "") :
    (run initState (Input.key (.char c0) t0 :: (charInputs ps ++ [Input.key .enter tE]))).flushLog
      = [pushAll (String.push "" c0) (ps.map Prod.fst)] ∧
    (run initState (Input.key (.char c0) t0 :: (charInputs ps ++ [Input.key .enter tE]))).outcomes
      = [Outcome.recorded (jsTrim (pushAll (String.push "" c0) (ps.map Prod.fst)))] ∧
    (run initState (Input.key (.char c0) t0 :: (charInputs ps ++ [Input.key .enter tE]))).scannedItems.map
        ScannedItem.serialNumber
      = [jsTrim (pushAll (String.push "" c0) (ps.map Prod.fst))] := by
  have hsplit : run initState (Input.key (.char c0) t0 :: (charInputs ps ++ [Input.key .enter tE]))
      = step (run (step initState (.key (.char c0) t0)) (charInputs ps)) (.key .enter tE) := by
    show List.foldl step initState _ = _
    rw [List.foldl_cons, List.foldl_append]
    rfl
  rw [hsplit, step_first_char, run_burst ps (String.push "" c0) t0 hgaps]
  exact enter_after_burst _ _ tE hne

/-- Witness for C1 (amended): `A` then `B` 100 ms later, Enter at 150 ms
after that, give the one candidate `"AB"` and the one record `"AB"`. -/
theorem c1_single_candidate_witness :
    (run initState (Input.key (.char 'A') 1000 ::
        (charInputs [('B', 1100)] ++ [Input.key .enter 1250]))).scannedItems.map
      ScannedItem.serialNumber = ["AB"] :=
  (c1_single_candidate 'A' 1000 [('B', 1100)] 1250
    ⟨by omega, by omega, trivial⟩ (by decide)).2.2

/-- C2 trace: characters 300 ms apart with no terminator, then silence. -/
def c2CexTrace : List Input :=
  [.key (.char 'A') 1000, .key (.char 'B') 1300, .elapse 2000]

/-- C2 counterexample: the characters `A`, `B` arrive with a 300 ms gap and
no terminator ever comes; the code flushes two completed candidates (at
1200 ms and 1500 ms), not exactly one, and the first flush happens before
the trailing silence even starts. -/
theorem c2_counterexample :
    (run initState c2CexTrace).flushLog = ["A", "B"] ∧
    (run initState c2CexTrace).scannedItems.map ScannedItem.timestamp = [1200, 1500] ∧
    ¬ ((run initState c2CexTrace).flushLog.length = 1) := by
  decide

/-- C2 (amended): after a burst of printable characters whose gaps are
strictly below the 200 ms quiet timeout, with no terminator: exactly one
auto-save timer is armed, for 200 ms after the last character; nothing has
been flushed; letting time pass to any instant before that deadline changes
nothing; and once the deadline is reached the buffer is flushed as exactly
one completed candidate, at the deadline itself (the record is stamped
`lastChar + 200`), the timer slot being spent. -/
theorem c2_quiet_timeout_flush (c0 : Char) (t0 : Nat) (ps : List (Char × Nat)) (T : Nat)
    (hgaps : gapsOk t0 ps) :
    (run initState (Input.key (.char c0) t0 :: charInputs ps)).autoSaveDeadline
      = some (lastT t0 ps + 200) ∧
    (run initState (Input.key (.char c0) t0 :: charInputs ps)).flushLog = [] ∧
    (T < lastT t0 ps + 200 →
      advance (run initState (Input.key (.char c0) t0 :: charInputs ps)) T
        = run initState (Input.key (.char c0) t0 :: charInputs ps)) ∧
    (lastT t0 ps + 200 ≤ T →
      (advance (run initState (Input.key (.char c0) t0 :: charInputs ps)) T).flushLog
        = [pushAll (String.push "" c0) (ps.map Prod.fst)] ∧
      (advance (run initState (Input.key (.char c0) t0 :: charInputs ps)) T).autoSaveDeadline
        = none ∧
      (jsTrim (pushAll (String.push "" c0) (ps.map Prod.fst)) ≠ "" →
        (advance (run initState (Input.key (.char c0) t0 :: charInputs ps)) T).outcomes
          = [Outcome.recorded (jsTrim (pushAll (String.push "" c0) (ps.map Prod.fst)))] ∧
        (advance (run initState (Input.key (.char c0) t0 :: charInputs ps)) T).scannedItems.map
            ScannedItem.serialNumber
          = [jsTrim (pushAll (String.push "" c0) (ps.map Prod.fst))] ∧
        (advance (run initState (Input.key (.char c0) t0 :: charInputs ps)) T).scannedItems.map
            ScannedItem.timestamp
          = [lastT t0 ps + 200])) := by
  have hburst : run initState (Input.key (.char c0) t0 :: charInputs ps)
      = midState (pushAll (String.push "" c0) (ps.map Prod.fst)) (lastT t0 ps) := by
    have h0 : run initState (Input.key (.char c0) t0 :: charInputs ps)
        = run (step initState (.key (.char c0) t0)) (charInputs ps) := rfl
    rw [h0, step_first_char, run_burst ps (String.push "" c0) t0 hgaps]
  rw [hburst]
  refine ⟨rfl, rfl, ?_, ?_⟩
  · intro hT
    exact advance_before_deadline _ _ T hT
  · intro hT
    have h := elapse_after_burst (pushAll (String.push "" c0) (ps.map Prod.fst)) (lastT t0 ps) T
      (pushAll_ne_empty "" c0 (ps.map Prod.fst)) hT
    exact ⟨h.1, h.2.1, h.2.2⟩

/-- Witness for C2 (amended): `Z` then `9` 50 ms apart, then silence past
the quiet timeout, give exactly the one record `"Z9"` stamped at 1250 ms. -/
theorem c2_quiet_timeout_flush_witness :
    (advance (run initState (Input.key (.char 'Z') 1000 :: charInputs [('9', 1050)]))
        2000).scannedItems.map ScannedItem.serialNumber = ["Z9"] :=
  ((((c2_quiet_timeout_flush 'Z' 1000 [('9', 1050)] 2000
      ⟨by omega, by omega, trivial⟩).2.2.2 (by decide)).2.2 (by decide)).2.1)

/-! ## Claim theorems: C3, C4, C6, C7 -/

/-- C3: recording a serial whose trimmed value is already in the Ledger
yields a duplicate-rejection outcome and error message naming that value
and leaves the collection unchanged; and recording the same trimmed value
twice from a state not containing it yields exactly one new record and one
duplicate outcome. -/
theorem c3_duplicate_rejection (s : ScanState) (v : String) (n1 n2 : Nat)
    (hne : jsTrim v ≠ "") :
    (s.scannedItems.any (fun item => item.serialNumber = jsTrim v) = true →
      (saveScannedBarcode s v n1).scannedItems = s.scannedItems ∧
      (saveScannedBarcode s v n1).outcomes = s.outcomes ++ [Outcome.duplicate (jsTrim v)] ∧
      (saveScannedBarcode s v n1).msgLog = s.msgLog ++
        [Msg.error ("Serial number " ++ jsTrim v ++ " already scanned!")]) ∧
    (s.scannedItems.any (fun item => item.serialNumber = jsTrim v) = false →
      (saveScannedBarcode (saveScannedBarcode s v n1) v n2).scannedItems
        = s.scannedItems ++ [⟨n1, jsTrim v, n1⟩] ∧
      (saveScannedBarcode (saveScannedBarcode s v n1) v n2).outcomes
        = s.outcomes ++ [Outcome.recorded (jsTrim v), Outcome.duplicate (jsTrim v)]) := by
  constructor
  · intro hdup
    unfold saveScannedBarcode
    simp [hne, hdup]
  · intro hnew
    unfold saveScannedBarcode
    simp [hne, hnew]

/-- Witness for C3: with `"XYZ"` recorded once into the empty ledger, a
second `record("XYZ")` leaves one record and adds one duplicate outcome. -/
theorem c3_duplicate_rejection_witness :
    (saveScannedBarcode (saveScannedBarcode initState "XYZ" 5) "XYZ" 9).scannedItems
      = [⟨5, "XYZ", 5⟩] ∧
    (saveScannedBarcode (saveScannedBarcode initState "XYZ" 5) "XYZ" 9).outcomes
      = [Outcome.recorded "XYZ", Outcome.duplicate "XYZ"] :=
  ((c3_duplicate_rejection initState "XYZ" 5 9 (by decide)).2 (by decide))

/-- C4: a printable character arriving while scanning is enabled, more than
500 ms after the previously accepted one, resets the buffer before being
appended: the new in-progress candidate is exactly that one character, the
key time is updated and a fresh quiet timer is armed; the Ledger is not
touched. -/
theorem c4_silence_reset (s : ScanState) (c : Char) (t : Nat)
    (hscan : s.isScanning = true) (hgap : t - s.lastKeyTime > 500) :
    (handleGlobalKeyDown s (.char c) t).scanBuffer = String.push "" c ∧
    (handleGlobalKeyDown s (.char c) t).lastKeyTime = t ∧
    (handleGlobalKeyDown s (.char c) t).autoSaveDeadline = some (t + 200) ∧
    (handleGlobalKeyDown s (.char c) t).scannedItems = s.scannedItems := by
  unfold handleGlobalKeyDown
  simp [hscan, hgap]

/-- Witness for C4: a `Q` arriving 600 ms after the last key of a state
holding `"OLD"` starts the fresh one-character candidate `"Q"`. -/
theorem c4_silence_reset_witness :
    (handleGlobalKeyDown (midState "OLD" 1000) (.char 'Q') 1601).scanBuffer
      = String.push "" 'Q' :=
  (c4_silence_reset (midState "OLD" 1000) 'Q' 1601 (by decide) (by decide)).1

/-- The C6 trace: two complete keyboard scans, `A`‹Enter› and `B`‹Enter›,
all delivered within the same millisecond 1000 — the speed a hardware
scanner actually reaches. -/
def c6Trace : List Input :=
  [.key (.char 'A') 1000, .key .enter 1000, .key (.char 'B') 1000, .key .enter 1000]

/-- C6 (code bug): the code derives the identifier from `Date.now()`, so
the two records saved within the same millisecond both get identifier
`1000`: identifiers are neither unique nor strictly increasing, and
`removeItem` on that identifier deletes both records. -/
theorem c6_id_collision :
    (run initState c6Trace).scannedItems.map ScannedItem.id = [1000, 1000] ∧
    ¬ ((run initState c6Trace).scannedItems.map ScannedItem.id).Pairwise (fun a b => a ≠ b) ∧
    (removeItem (run initState c6Trace) 1000).scannedItems = [] := by
  decide

/-- C7: a candidate that trims to empty is discarded as a complete no-op —
same state, no record, no message; an Enter on an empty buffer is likewise
a complete no-op; and `saveScannedBarcode` depends only on the trimmed
value, i.e. the candidate is trimmed before the dedup check. -/
theorem c7_trim_and_discard (s : ScanState) (v : String) (now t : Nat)
    (hbuf : s.scanBuffer = "") (hws : jsTrim v = "") :
    saveScannedBarcode s v now = s ∧
    handleGlobalKeyDown s .enter t = s ∧
    (∀ w : String, ∀ n : Nat, saveScannedBarcode s w n = saveScannedBarcode s (jsTrim w) n) := by
  refine ⟨?_, ?_, ?_⟩
  · unfold saveScannedBarcode
    simp [hws]
  · unfold handleGlobalKeyDown
    by_cases hscan : s.isScanning <;> simp [hscan, hbuf]
  · intro w n
    unfold saveScannedBarcode
    rw [jsTrim_idem]

/-- Witness for C7: saving the all-whitespace candidate `"  "` into the
initial state, and pressing Enter with the empty buffer, change nothing. -/
theorem c7_trim_and_discard_witness :
    saveScannedBarcode initState "  " 7 = initState ∧
    handleGlobalKeyDown initState .enter 7 = initState :=
  ⟨(c7_trim_and_discard initState "  " 7 7 (by decide) (by decide)).1,
   (c7_trim_and_discard initState "  " 7 7 (by decide) (by decide)).2.1⟩

/-! ## Claim theorems: C5, C8, C9, C10 -/

/-- The Ledger invariant of the keyboard path: stored serial values are
pairwise distinct and each is already trimmed (so distinctness holds under
whitespace-trimmed comparison as well). -/
def LedgerInv (l : List ScannedItem) : Prop :=
  (l.map ScannedItem.serialNumber).Pairwise (fun a b => a ≠ b) ∧
  ∀ r ∈ l, jsTrim r.serialNumber = r.serialNumber

instance (l : List ScannedItem) : Decidable (LedgerInv l) := by
  unfold LedgerInv
  infer_instance

/-- C5 counterexample: the camera path deduplicates and stores the decoded
string without trimming, so decoding `" A"` and then `"A"` yields two
records whose trimmed serial values are both `"A"` — the trimmed-uniqueness
invariant fails on that entry path. -/
theorem c5_counterexample :
    ((handleScanSuccess (handleScanSuccess [] " A" 1).1 "A" 2).1.map
        (fun r => jsTrim r.serialNumber)) = ["A", "A"] ∧
    ¬ ((handleScanSuccess (handleScanSuccess [] " A" 1).1 "A" 2).1.map
        (fun r => jsTrim r.serialNumber)).Pairwise (fun a b => a ≠ b) := by
  decide

/-- C5 (amended): the keyboard entry path preserves the trimmed-uniqueness
invariant; the camera entry path preserves raw pairwise distinctness of the
stored serial values, and preserves the trimmed-uniqueness invariant only
under the extra assumption that the decoded string carries no surrounding
whitespace. -/
theorem c5_uniqueness_invariant (s : ScanState) (v : String) (now : Nat)
    (items : List ScannedItem) (d : String) (n2 : Nat)
    (hled : LedgerInv s.scannedItems)
    (hraw : (items.map ScannedItem.serialNumber).Pairwise (fun a b => a ≠ b))
    (hinv : LedgerInv items) (hd : jsTrim d = d) :
    LedgerInv (saveScannedBarcode s v now).scannedItems ∧
    ((handleScanSuccess items d n2).1.map ScannedItem.serialNumber).Pairwise
      (fun a b => a ≠ b) ∧
    LedgerInv (handleScanSuccess items d n2).1 := by
  refine ⟨?_, ?_, ?_⟩
  · unfold saveScannedBarcode
    by_cases hws : jsTrim v = ""
    · simpa [hws] using hled
    · by_cases hdup : s.scannedItems.any (fun item => item.serialNumber = jsTrim v)
      · simpa [hws, hdup] using hled
      · simp only [hws, hdup, if_neg, if_pos, Bool.false_eq_true, ite_false, ite_true]
        obtain ⟨hpw, htr⟩ := hled
        constructor
        · rw [List.map_append, List.pairwise_append]
          refine ⟨hpw, by simp, ?_⟩
          intro a ha b hb
          simp only [List.map_cons, List.map_nil, List.mem_cons, List.not_mem_nil,
            or_false] at hb
          subst hb
          simp only [List.any_eq_true, not_exists, not_and] at hdup
          simp only [List.mem_map] at ha
          obtain ⟨r, hr, hra⟩ := ha
          intro he
          subst he
          exact hdup r hr (by simp [hra])
        · intro r hr
          rcases List.mem_append.mp hr with h | h
          · exact htr r h
          · simp only [List.mem_singleton] at h
            subst h
            exact jsTrim_idem v
  · unfold handleScanSuccess
    by_cases hdup : items.any (fun item => item.serialNumber = d)
    · simpa [hdup] using hraw
    · simp only [hdup, Bool.false_eq_true, ite_false]
      rw [List.map_append, List.pairwise_append]
      refine ⟨hraw, by simp, ?_⟩
      intro a ha b hb
      simp only [List.map_cons, List.map_nil, List.mem_cons, List.not_mem_nil,
        or_false] at hb
      subst hb
      simp only [List.any_eq_true, not_exists, not_and] at hdup
      simp only [List.mem_map] at ha
      obtain ⟨r, hr, hra⟩ := ha
      intro he
      subst he
      exact hdup r hr (by simp [hra])
  · unfold handleScanSuccess
    by_cases hdup : items.any (fun item => item.serialNumber = d)
    · simpa [hdup] using hinv
    · simp only [hdup, Bool.false_eq_true, ite_false]
      obtain ⟨hpw, htr⟩ := hinv
      constructor
      · rw [List.map_append, List.pairwise_append]
        refine ⟨hpw, by simp, ?_⟩
        intro a ha b hb
        simp only [List.map_cons, List.map_nil, List.mem_cons, List.not_mem_nil,
          or_false] at hb
        subst hb
        simp only [List.any_eq_true, not_exists, not_and] at hdup
        simp only [List.mem_map] at ha
        obtain ⟨r, hr, hra⟩ := ha
        intro he
        subst he
        exact hdup r hr (by simp [hra])
      · intro r hr
        rcases List.mem_append.mp hr with h | h
        · exact htr r h
        · simp only [List.mem_singleton] at h
          subst h
          exact hd

/-- Witness for C5 (amended): saving `" AB "` into the initial state keeps
the keyboard invariant, and a camera decode of the trimmed `"CD"` onto a
valid one-record ledger keeps both distinctness properties. -/
theorem c5_uniqueness_invariant_witness :
    LedgerInv (saveScannedBarcode initState " AB " 3).scannedItems ∧
    (((handleScanSuccess [⟨1, "AB", 1⟩] "CD" 4).1.map ScannedItem.serialNumber).Pairwise
      (fun a b => a ≠ b) ∧
     LedgerInv (handleScanSuccess [⟨1, "AB", 1⟩] "CD" 4).1) :=
  ⟨(c5_uniqueness_invariant initState " AB " 3 [⟨1, "AB", 1⟩] "CD" 4
      (by decide) (by decide) (by decide) (by decide)).1,
   (c5_uniqueness_invariant initState " AB " 3 [⟨1, "AB", 1⟩] "CD" 4
      (by decide) (by decide) (by decide) (by decide)).2⟩

/-- C8: while the session is disabled every key event is ignored with no
effect at all; disabling an enabled session discards the pending buffer and
timer without flushing (ledger, flush log, outcomes and messages are
untouched); and after re-enabling, the buffer is empty and the first
accepted character starts a candidate containing only itself. -/
theorem c8_disabled_frame (s sOff : ScanState) (e : KeyEvent) (c : Char) (t t2 : Nat)
    (hscan : s.isScanning = true) (hoff : sOff.isScanning = false) :
    handleGlobalKeyDown sOff e t = sOff ∧
    (toggleScanning s).isScanning = false ∧
    (toggleScanning s).scanBuffer = "" ∧
    (toggleScanning s).autoSaveDeadline = none ∧
    (toggleScanning s).scannedItems = s.scannedItems ∧
    (toggleScanning s).flushLog = s.flushLog ∧
    (toggleScanning s).outcomes = s.outcomes ∧
    (toggleScanning s).msgLog = s.msgLog ∧
    (toggleScanning (toggleScanning s)).scanBuffer = "" ∧
    (handleGlobalKeyDown (toggleScanning (toggleScanning s)) (.char c) t2).scanBuffer
      = String.push "" c := by
  refine ⟨?_, by simp [toggleScanning, hscan], rfl, rfl, rfl, rfl, rfl, rfl, rfl, ?_⟩
  · unfold handleGlobalKeyDown
    simp [hoff]
  · unfold handleGlobalKeyDown toggleScanning
    by_cases hgap : t2 - s.lastKeyTime > 500 <;> simp [hscan, hgap]

/-- Witness for C8: from a mid-scan state holding `"AB"`, a keydown while
disabled is a no-op and toggling off discards the buffer. -/
theorem c8_disabled_frame_witness :
    handleGlobalKeyDown (toggleScanning (midState "AB" 1000)) (.char 'Z') 1005
      = toggleScanning (midState "AB" 1000) ∧
    (toggleScanning (midState "AB" 1000)).scanBuffer = "" :=
  ⟨(c8_disabled_frame (midState "AB" 1000) (toggleScanning (midState "AB" 1000))
      (.char 'Z') 'Z' 1005 1005 (by decide) (by decide)).1,
   (c8_disabled_frame (midState "AB" 1000) (toggleScanning (midState "AB" 1000))
      (.char 'Z') 'Z' 1005 1005 (by decide) (by decide)).2.2.1⟩

/-- C9: `removeItem` is a silent no-op when no record carries the
identifier; otherwise it deletes exactly the records carrying it — the
remaining records are kept identically, in their original relative order
(the result is a sublist of the original), and nothing else of the state
changes. -/
theorem c9_remove (s : ScanState) (id : Nat) :
    ((∀ r ∈ s.scannedItems, r.id ≠ id) → removeItem s id = s) ∧
    (removeItem s id).scannedItems.Sublist s.scannedItems ∧
    (∀ r ∈ (removeItem s id).scannedItems, r.id ≠ id) ∧
    (∀ r ∈ s.scannedItems, r.id ≠ id → r ∈ (removeItem s id).scannedItems) ∧
    (removeItem s id).isScanning = s.isScanning ∧
    (removeItem s id).msgLog = s.msgLog := by
  refine ⟨?_, ?_, ?_, ?_, rfl, rfl⟩
  · intro h
    unfold removeItem
    rw [List.filter_eq_self.mpr (fun r hr => by simpa using h r hr)]
  · exact List.filter_sublist _
  · intro r hr
    have := List.of_mem_filter hr
    simpa using this
  · intro r hr hne
    exact List.mem_filter.mpr ⟨hr, by simpa using hne⟩

/-- Witness for C9: removing the absent identifier `99` from a one-record
state changes nothing. -/
theorem c9_remove_witness :
    removeItem (saveScannedBarcode initState "AB" 3) 99 = saveScannedBarcode initState "AB" 3 :=
  (c9_remove (saveScannedBarcode initState "AB" 3) 99).1 (by decide)

/-- C10: an Enter event never applies the silence-threshold reset: at any
arrival time — however long after the last accepted character — it flushes
exactly the current buffer content, and when that content trims to a value
not yet in the Ledger, the Ledger gains it. -/
theorem c10_enter_ignores_gap (s : ScanState) (t : Nat)
    (hscan : s.isScanning = true) (hbuf : s.scanBuffer ≠ "") :
    (handleGlobalKeyDown s .enter t).flushLog = s.flushLog ++ [s.scanBuffer] ∧
    (jsTrim s.scanBuffer ≠ "" →
      s.scannedItems.any (fun item => item.serialNumber = jsTrim s.scanBuffer) = false →
      (handleGlobalKeyDown s .enter t).scannedItems
        = s.scannedItems ++ [⟨t, jsTrim s.scanBuffer, t⟩]) := by
  constructor
  · unfold handleGlobalKeyDown saveScannedBarcode
    by_cases hws : jsTrim s.scanBuffer = "" <;>
      by_cases hdup : s.scannedItems.any (fun item => item.serialNumber = jsTrim s.scanBuffer) <;>
        simp [hscan, hbuf, hws, hdup]
  · intro hws hdup
    unfold handleGlobalKeyDown saveScannedBarcode
    simp [hscan, hbuf, hws, hdup]

/-- Witness for C10: an Enter arriving 10 000 ms after the last key of a
state holding `"AB"` — far beyond the 500 ms silence threshold — still
submits `"AB"` to the Ledger instead of discarding it. -/
theorem c10_enter_ignores_gap_witness :
    (handleGlobalKeyDown (midState "AB" 1000) .enter 11000).scannedItems
      = [⟨11000, "AB", 11000⟩] :=
  (c10_enter_ignores_gap (midState "AB" 1000) 11000 (by decide) (by decide)).2
    (by decide) (by decide)
